import Mathlib

/-!
Verification development for the insights-core client collection pipeline.

This file gives a shallow embedding of the Python modules
`insights/client/data_collector.py`, `insights/client/collection_rules.py`
and `insights/client/archive.py`, and proves properties of the embedded
functions.

Conventions of the embedding:
* Python exceptions are modelled with `Except PyErr`; a Python function
  that cannot raise is a plain Lean function.
* Subprocess and filesystem interactions are modelled as explicit
  parameters (outcomes supplied by the environment).
* Python dicts are association lists with unique keys; assignment is
  `dictInsert`, lookup is `dictLookup` (first match).
-/

/-- Python exception classes that the embedded code can raise. -/
inductive PyErr where
  | runtimeError (msg : String)
  | typeError
  | valueError
  | indexError
  | attributeError
deriving DecidableEq, Repr

/-! ## Small string helpers (faithful to the Python primitives used) -/

/-- The single-quote character, written by code point to keep source plain. -/
def squoteChar : Char := Char.ofNat 39

/-- The double-quote character. -/
def dquoteChar : Char := Char.ofNat 34

/-- The backslash character. -/
def bslashChar : Char := Char.ofNat 92

/-- Python `shlex.whitespace`: the four characters space, tab, CR, LF. -/
def pyWhitespace (c : Char) : Bool :=
  c = ' ' || c = Char.ofNat 9 || c = Char.ofNat 13 || c = Char.ofNat 10

/-!
## The shlex tokenizer

`shlex.split(s)` in POSIX mode with `whitespace_split=True` and no
comment characters, as used by `DataCollector._blacklist_check`.
The tokenizer is a state machine; `LexState` mirrors `shlex.state`
(`' '`, `'a'`, the two quote states, and the escape state remembering
the state it was entered from, which is `'a'` or `'"'`).
An unterminated quote or a trailing escape raises `ValueError` in
Python; the model returns `none` for those inputs.
-/

inductive LexState where
  | ws | word | squote | dquote | escWord | escDquote
deriving DecidableEq, Repr

/-- One pass of `shlex.read_token`, fused over the whole input.
`tok` is the token accumulated so far and `q` the `quoted` flag of the
current token. -/
def shlexCore : List Char → LexState → List Char → Bool → Option (List String)
  | [], .ws, _, _ => some []
  | [], .word, tok, _ => some [String.mk tok]
  | [], .squote, _, _ => none
  | [], .dquote, _, _ => none
  | [], .escWord, _, _ => none
  | [], .escDquote, _, _ => none
  | c :: cs, .ws, tok, q =>
    if pyWhitespace c then shlexCore cs .ws tok q
    else if c = bslashChar then shlexCore cs .escWord tok q
    else if c = squoteChar then shlexCore cs .squote tok true
    else if c = dquoteChar then shlexCore cs .dquote tok true
    else shlexCore cs .word (tok ++ [c]) q
  | c :: cs, .word, tok, q =>
    if pyWhitespace c then
      if tok ≠ [] ∨ q = true then
        match shlexCore cs .ws [] false with
        | none => none
        | some ts => some (String.mk tok :: ts)
      else shlexCore cs .ws [] false
    else if c = squoteChar then shlexCore cs .squote tok true
    else if c = dquoteChar then shlexCore cs .dquote tok true
    else if c = bslashChar then shlexCore cs .escWord tok q
    else shlexCore cs .word (tok ++ [c]) q
  | c :: cs, .squote, tok, q =>
    if c = squoteChar then shlexCore cs .word tok q
    else shlexCore cs .squote (tok ++ [c]) q
  | c :: cs, .dquote, tok, q =>
    if c = dquoteChar then shlexCore cs .word tok q
    else if c = bslashChar then shlexCore cs .escDquote tok q
    else shlexCore cs .dquote (tok ++ [c]) q
  | c :: cs, .escWord, tok, q => shlexCore cs .word (tok ++ [c]) q
  | c :: cs, .escDquote, tok, q =>
    if c = bslashChar ∨ c = dquoteChar then shlexCore cs .dquote (tok ++ [c]) q
    else shlexCore cs .dquote (tok ++ [bslashChar, c]) q

/-- Embedding of `shlex.split(s)`; `none` models the `ValueError` raised on an
unterminated quote or trailing escape. -/
def shlexSplit (s : String) : Option (List String) :=
  shlexCore s.data .ws [] false

/-- Python `cmd.replace(";", " ")`: a character-wise replacement. -/
def replaceSemi (s : String) : String :=
  String.mk (s.data.map (fun c => if c = ';' then ' ' else c))

/-!
## DataCollector._blacklist_check

```python
def _blacklist_check(self, cmd):
    def _get_nested_parts(cmd):
        parts = shlex.split(cmd.replace(";", " "))
        all_parts = parts[:]
        for p in parts:
            if len(shlex.split(p)) > 1:
                all_parts += _get_nested_parts(p)
        return all_parts
    cmd_parts = _get_nested_parts(cmd)
    return len(set.intersection(set(cmd_parts), constants.command_blacklist)) > 0
```

`_get_nested_parts` recurses on tokens of its input; a token that
re-tokenizes into more than one token is strictly shorter than the
string it came from, so the recursion depth is bounded by the length of
the input.  The embedding makes that bound explicit as fuel
(`length + 1`), which the recursion never exhausts.

`constants.command_blacklist` lives in `constants.py`, which only
supplies a fixed set of strings; the set is a parameter of the
embedding.
-/

/-- The loop body of `_get_nested_parts`: walk the top-level tokens and
collect the recursively extracted parts of every token that itself
splits into more than one shell token.  `recFn` is the recursive call. -/
def nestedOf (recFn : String → Option (List String)) : List String → Option (List String)
  | [] => some []
  | p :: rest =>
    match shlexSplit p with
    | none => none
    | some sub =>
      match (if 1 < sub.length then recFn p else some []), nestedOf recFn rest with
      | some ns, some es => some (ns ++ es)
      | _, _ => none

/-- Embedding of `_get_nested_parts`, with fuel bounding the recursion depth. -/
def getNestedParts : Nat → String → Option (List String)
  | 0, _ => none
  | fuel + 1, cmd =>
    match shlexSplit (replaceSemi cmd) with
    | none => none
    | some parts =>
      match nestedOf (getNestedParts fuel) parts with
      | none => none
      | some extra => some (parts ++ extra)

/-- Embedding of `DataCollector._blacklist_check`, parameterized by the blacklist
set.  `none` models the `ValueError` that `shlex.split` raises on a
malformed command. -/
def blacklist_check (blacklist : List String) (cmd : String) : Option Bool :=
  match getNestedParts (cmd.length + 1) cmd with
  | none => none
  | some parts => some (decide (∃ p ∈ parts, p ∈ blacklist))

/-- The token union described by the spec: the recursive extraction
re-tokenizes a token with plain `shlexSplit`; only the initial split
treats a semicolon as whitespace (see `shellTokenUnion`). -/
def shellTokens : Nat → String → Option (List String)
  | 0, _ => none
  | fuel + 1, s =>
    match shlexSplit s with
    | none => none
    | some parts =>
      match nestedOf (shellTokens fuel) parts with
      | none => none
      | some extra => some (parts ++ extra)

/-- The union of shell tokens of a command as worded by the spec: split
with `;` treated as whitespace, then recursively re-tokenize every
token that itself splits into more than one shell token. -/
def shellTokenUnion (cmd : String) : Option (List String) :=
  shellTokens (cmd.length + 1) (replaceSemi cmd)

/-! ### Tokens of a semicolon-free string are semicolon-free -/

lemma tokPush {tok : List Char} {c : Char} (htok : ∀ x ∈ tok, x ≠ ';') (hc : c ≠ ';') :
    ∀ x ∈ tok ++ [c], x ≠ ';' := by
  intro x hx
  rcases List.mem_append.mp hx with h | h
  · exact htok x h
  · simpa using List.mem_singleton.mp h ▸ hc

lemma tokPush2 {tok : List Char} {c : Char} (htok : ∀ x ∈ tok, x ≠ ';') (hc : c ≠ ';') :
    ∀ x ∈ tok ++ [bslashChar, c], x ≠ ';' := by
  intro x hx
  rcases List.mem_append.mp hx with h | h
  · exact htok x h
  · rcases List.mem_cons.mp h with h | h
    · subst h; decide
    · simpa using List.mem_singleton.mp h ▸ hc

lemma shlexCore_semi_free :
    ∀ (cs : List Char) (st : LexState) (tok : List Char) (q : Bool) (ts : List String),
    (∀ c ∈ cs, c ≠ ';') → (∀ c ∈ tok, c ≠ ';') →
    shlexCore cs st tok q = some ts →
    ∀ t ∈ ts, ∀ c ∈ t.data, c ≠ ';' := by
  intro cs
  induction cs with
  | nil =>
    intro st tok q ts _ htok h t ht c hc
    cases st <;> simp only [shlexCore] at h
    case ws =>
      rw [← Option.some_inj.mp h] at ht
      exact absurd ht (List.not_mem_nil t)
    case word =>
      rw [← Option.some_inj.mp h] at ht
      rcases List.mem_singleton.mp ht with rfl
      exact htok c hc
    all_goals exact absurd h (by simp)
  | cons c cs ih =>
    intro st tok q ts hcs htok h
    have hc : c ≠ ';' := hcs c (List.mem_cons_self c cs)
    have hcs' : ∀ x ∈ cs, x ≠ ';' := fun x hx => hcs x (List.mem_cons_of_mem _ hx)
    cases st <;> simp only [shlexCore] at h
    case ws =>
      split at h
      · exact ih _ _ _ _ hcs' htok h
      · split at h
        · exact ih _ _ _ _ hcs' htok h
        · split at h
          · exact ih _ _ _ _ hcs' htok h
          · split at h
            · exact ih _ _ _ _ hcs' htok h
            · exact ih _ _ _ _ hcs' (tokPush htok hc) h
    case word =>
      split at h
      · split at h
        · split at h
          · exact absurd h (by simp)
          · rename_i ts' hts'
            intro t ht
            rw [← Option.some_inj.mp h] at ht
            rcases List.mem_cons.mp ht with rfl | ht
            · exact htok
            · exact ih _ _ _ _ hcs' (by simp) hts' t ht
        · exact ih _ _ _ _ hcs' (by simp) h
      · split at h
        · exact ih _ _ _ _ hcs' htok h
        · split at h
          · exact ih _ _ _ _ hcs' htok h
          · split at h
            · exact ih _ _ _ _ hcs' htok h
            · exact ih _ _ _ _ hcs' (tokPush htok hc) h
    case squote =>
      split at h
      · exact ih _ _ _ _ hcs' htok h
      · exact ih _ _ _ _ hcs' (tokPush htok hc) h
    case dquote =>
      split at h
      · exact ih _ _ _ _ hcs' htok h
      · split at h
        · exact ih _ _ _ _ hcs' htok h
        · exact ih _ _ _ _ hcs' (tokPush htok hc) h
    case escWord => exact ih _ _ _ _ hcs' (tokPush htok hc) h
    case escDquote =>
      split at h
      · exact ih _ _ _ _ hcs' (tokPush htok hc) h
      · exact ih _ _ _ _ hcs' (tokPush2 htok hc) h

/-- A string is semicolon-free if none of its characters is `;`. -/
def semiFree (s : String) : Prop := ∀ c ∈ s.data, c ≠ ';'

lemma shlexSplit_semi_free {s : String} {ts : List String}
    (hs : semiFree s) (h : shlexSplit s = some ts) : ∀ t ∈ ts, semiFree t :=
  fun t ht c hc => shlexCore_semi_free s.data .ws [] false ts hs (by simp) h t ht c hc

lemma replaceSemi_semi_free (s : String) : semiFree (replaceSemi s) := by
  intro c hc
  have hc' : c ∈ s.data.map (fun c => if c = ';' then ' ' else c) := hc
  rcases List.mem_map.mp hc' with ⟨a, _, rfl⟩
  split
  · decide
  · assumption

lemma replaceSemi_id {s : String} (h : semiFree s) : replaceSemi s = s := by
  unfold replaceSemi
  cases s with
  | mk data =>
    congr 1
    have : ∀ c ∈ data, (fun c => if c = ';' then ' ' else c) c = id c := by
      intro c hcm
      simp only [id]
      exact if_neg (h c hcm)
    rw [List.map_congr_left this, List.map_id]

/-! ### The recursion of the code equals the token union of the spec -/

lemma nestedOf_congr {f g : String → Option (List String)} :
    ∀ (ps : List String), (∀ p ∈ ps, f p = g p) → nestedOf f ps = nestedOf g ps := by
  intro ps
  induction ps with
  | nil => intro _; rfl
  | cons p rest ih =>
    intro hfg
    simp only [nestedOf]
    rw [hfg p (List.mem_cons_self p rest), ih (fun x hx => hfg x (List.mem_cons_of_mem _ hx))]

lemma getNestedParts_eq_shellTokens :
    ∀ (fuel : Nat) (s : String), getNestedParts fuel s = shellTokens fuel (replaceSemi s) := by
  intro fuel
  induction fuel with
  | zero => intro s; rfl
  | succ n ih =>
    intro s
    simp only [getNestedParts, shellTokens]
    cases hsp : shlexSplit (replaceSemi s) with
    | none => rfl
    | some parts =>
      have hsf : ∀ p ∈ parts, semiFree p := shlexSplit_semi_free (replaceSemi_semi_free s) hsp
      have hn : nestedOf (getNestedParts n) parts = nestedOf (shellTokens n) parts := by
        apply nestedOf_congr
        intro p hp
        rw [ih p, replaceSemi_id (hsf p hp)]
      dsimp only
      rw [hn]

/-- The literal safe-command example of the spec: the word echo
followed by a single-quoted argument of two words, built from the
quote character by code point. -/
def safeCommand : String :=
  "echo " ++ String.mk [squoteChar] ++ "safe command" ++ String.mk [squoteChar]

/-- C1: `_blacklist_check` returns true if and only if the union of
shell tokens of the command — the initial split treating `;` as
whitespace, every token that re-tokenizes into more than one shell
token recursively re-tokenized — intersects the blacklist set; in
particular `isBlacklisted("rm -rf /; echo ok")` is true whenever `rm`
is blacklisted, and `isBlacklisted` on the quoted safe-command
example (`safeCommand`) is false when none of its tokens is
blacklisted. -/
theorem C1_blacklist_tokenization :
    (∀ (blacklist cmdTokens : List String) (cmd : String),
      shellTokenUnion cmd = some cmdTokens →
      (blacklist_check blacklist cmd = some true ↔ ∃ t ∈ cmdTokens, t ∈ blacklist))
    ∧ (∀ blacklist : List String, ("rm") ∈ blacklist →
      blacklist_check blacklist ("rm -rf /; echo ok") = some true)
    ∧ (∀ blacklist : List String,
      (∀ t ∈ ([("echo"), ("safe command"), ("safe"), ("command")] : List String),
        t ∉ blacklist) →
      blacklist_check blacklist safeCommand = some false) := by
  refine ⟨?_, ?_, ?_⟩
  · intro blacklist cmdTokens cmd h
    unfold shellTokenUnion at h
    unfold blacklist_check
    rw [getNestedParts_eq_shellTokens, h]
    simp
  · intro blacklist h
    unfold blacklist_check
    rw [show getNestedParts (("rm -rf /; echo ok" : String).length + 1) ("rm -rf /; echo ok")
        = some ([("rm"), ("-rf"), ("/"), ("echo"), ("ok")]) from by decide]
    simp only [Option.some_inj, decide_eq_true_eq]
    exact ⟨("rm"), by simp, h⟩
  · intro blacklist h
    unfold blacklist_check
    rw [show getNestedParts (safeCommand.length + 1) safeCommand
        = some ([("echo"), ("safe command"), ("safe"), ("command")]) from by decide]
    simp only [Option.some_inj]
    apply decide_eq_false
    rintro ⟨p, hp, hmem⟩
    exact h p hp hmem

/-- Witness for C1: instantiates all three conjuncts at the blacklist
`["rm"]` and the two command strings of the claim. -/
theorem C1_blacklist_tokenization_witness :
    blacklist_check ([("rm")]) ("rm -rf /; echo ok") = some true
    ∧ blacklist_check ([("rm")]) safeCommand = some false
    ∧ (blacklist_check ([("rm")]) ("rm -rf /; echo ok") = some true ↔
        ∃ t ∈ ([("rm"), ("-rf"), ("/"), ("echo"), ("ok")] : List String),
          t ∈ ([("rm")] : List String)) :=
  ⟨C1_blacklist_tokenization.2.1 _ (by decide),
   C1_blacklist_tokenization.2.2 _ (by decide),
   C1_blacklist_tokenization.1 _ _ _ (by decide)⟩

/-!
## Python dict and string primitives for collection_rules.py
-/

/-- Keys of a Python dict (association list with unique keys). -/
def dictKeys {α : Type} (m : List (String × α)) : List String := m.map Prod.fst

/-- Python dict lookup: first (and, with unique keys, only) match. -/
def dictLookup {α : Type} (m : List (String × α)) (k : String) : Option α :=
  match m with
  | [] => none
  | (k', v) :: rest => if k' = k then some v else dictLookup rest k

/-- Python dict assignment `m[k] = v`: overwrite in place or append. -/
def dictInsert {α : Type} (m : List (String × α)) (k : String) (v : α) : List (String × α) :=
  match m with
  | [] => [(k, v)]
  | (k', v') :: rest => if k' = k then (k, v) :: rest else (k', v') :: dictInsert rest k v

/-- Python `str.split(sep)` for a one-character separator (keeps empty pieces). -/
def splitOnChar (sep : Char) : List Char → List (List Char)
  | [] => [[]]
  | c :: rest =>
    match splitOnChar sep rest with
    | [] => [[c]]
    | g :: gs => if c = sep then [] :: g :: gs else (c :: g) :: gs

/-- Python `s.split(sep)` on strings, one-character separator. -/
def pySplit (sep : Char) (s : String) : List String :=
  (splitOnChar sep s.data).map String.mk

/-- Python `s.strip()` (ASCII whitespace model). -/
def pyStrip (s : String) : String :=
  String.mk (((s.data.dropWhile Char.isWhitespace).reverse.dropWhile Char.isWhitespace).reverse)

/-- Python `sep.join(xs)`. -/
def joinWith (sep : String) : List String → String
  | [] => ("")
  | [x] => x
  | x :: y :: rest => x ++ sep ++ joinWith sep (y :: rest)

/-!
## collection_rules.py: the exclusion-configuration loader

A value loaded from YAML is modelled by `YVal`; `truthy` is Python
truthiness on such a value (used by the post-validation filter
`dict((k, v) for k, v in rm_conf.items() if v)`).
-/

/-- A YAML-loaded Python value (mapping keys are strings, which is the
only shape the loader ever inspects). -/
inductive YVal where
  | null
  | bool (b : Bool)
  | int (n : Int)
  | str (s : String)
  | list (xs : List YVal)
  | map (kvs : List (String × YVal))

/-- Python truthiness of a loaded value. -/
def truthy : YVal → Bool
  | .null => false
  | .bool b => b
  | .int n => n != 0
  | .str s => s != ""
  | .list [] => false
  | .list (_ :: _) => true
  | .map [] => false
  | .map (_ :: _) => true

/-- The tuple `expected_keys = ("commands", "files", "patterns", "keywords")`. -/
def expected_keys : List String := [("commands"), ("files"), ("patterns"), ("keywords")]

/-- The helper `is_list_of_strings` from `get_rm_conf`: `None` counts as an empty
list; otherwise the value must be a list whose members are strings. -/
def is_list_of_strings : YVal → Bool
  | .null => true
  | .list xs => xs.all (fun v => match v with | .str _ => true | _ => false)
  | _ => false

/-- The per-key format check inside `correct_format` for one expected
key that is present in the parsed data. -/
def checkKey (m : List (String × YVal)) (k : String) : Option String :=
  match dictLookup m k with
  | none => none
  | some v =>
    if k = ("patterns") then
      match v with
      | .map pm =>
        if (dictLookup pm ("regex")).isNone then
          some ("Patterns section contains an object but the \"regex\" key was not specified.")
        else if 1 < pm.length then
          some ("Unknown keys in the patterns section. Only \"regex\" is valid.")
        else if is_list_of_strings ((dictLookup pm ("regex")).getD .null) then none
        else some ("regex section under patterns must be a list of strings.")
      | _ =>
        if is_list_of_strings v then none
        else some (k ++ " section must be a list of strings.")
    else
      if is_list_of_strings v then none
      else some (k ++ " section must be a list of strings.")

/-- The `for k in expected_keys` loop of `correct_format`. -/
def checkKeys (m : List (String × YVal)) : List String → Option String
  | [] => none
  | k :: rest =>
    match checkKey m k with
    | some msg => some msg
    | none => checkKeys m rest

/-- Embedding of `correct_format(parsed_data)`: `some msg` is the error case
(`True, msg` in Python).  Python joins the offending keys from a set
whose iteration order is unspecified; the embedding uses first-occurrence
order, which names the same set of keys. -/
def correct_format (m : List (String × YVal)) : Option String :=
  let invalid := (dictKeys m).filter (fun k => k ∉ expected_keys)
  if invalid ≠ [] then
    some ("Unknown section(s) in remove.conf: " ++ joinWith (", ") invalid ++
      "\nValid sections are commands, files, patterns, keywords.")
  else checkKeys m expected_keys

/-- The configuration attributes the embedded code reads. -/
structure InsightsConfig where
  obfuscate : Bool
  obfuscate_hostname : Bool
  keep_archive : Bool
  no_upload : Bool
  output_dir : Option String
  compressor : String
  remove_file : String
  logging_file : String
  verbose : Bool
  validate_flag : Bool
deriving DecidableEq, Repr

/-- The state of an `InsightsUploadConf` object.  `config?` models the
attributes assigned by `__init__`, which stores `config.remove_file`
but never assigns `self.config`; any later access to `self.config`
therefore raises `AttributeError` (modelled by `config? = none`). -/
structure UploadConfState where
  remove_file : String
  config? : Option InsightsConfig
deriving DecidableEq, Repr

/-- Embedding of `InsightsUploadConf.__init__(config)`: only `remove_file` is set. -/
def uploadConf_init (config : InsightsConfig) : UploadConfState :=
  { remove_file := config.remove_file, config? := none }

/-- The environment for the legacy flat parser: the unicode-escape
codec (a Python stdlib codec, external to the repository) and the
result of `RawConfigParser.read` + `items("remove")` — either the
section items in file order, or a `ConfigParser.Error`. -/
structure IniEnv where
  decode : String → String
  items : Except Unit (List (String × String))

/-- The `for item, value in parsedconfig.items("remove")` loop of
`get_rm_conf_old`: an unknown section raises, otherwise the value is
stripped, escape-decoded and split on commas. -/
def oldLoop (decode : String → String) :
    List (String × String) → List (String × List String) →
    Except PyErr (List (String × List String))
  | [], acc => .ok acc
  | (item, value) :: rest, acc =>
    if item ∈ expected_keys then
      oldLoop decode rest (dictInsert acc item (pySplit (',') (decode (pyStrip value))))
    else
      .error (.runtimeError ("Unknown section in remove.conf: " ++ item ++
        "\nValid sections are commands, files, patterns, keywords."))

/-- Embedding of `InsightsUploadConf.get_rm_conf_old`.  On a `ConfigParser.Error`
the code builds a user-facing message from `self.config.logging_file`;
since `__init__` never assigns `self.config`, that access raises
`AttributeError` instead. -/
def get_rm_conf_old (self : UploadConfState) (ini : IniEnv) :
    Except PyErr (List (String × List String)) :=
  match ini.items with
  | .error _ =>
    match self.config? with
    | none => .error .attributeError
    | some cfg =>
      .error (.runtimeError ("ERROR: Cannot parse the remove.conf file as a YAML file " ++
        "nor as an INI file. Please check the file formatting.\nSee " ++
        cfg.logging_file ++ " for more information."))
  | .ok items => oldLoop ini.decode items []

/-- The dictionary built by a successful legacy parse: each section
value stripped, escape-decoded and comma-split (the loop of
`get_rm_conf_old` as a fold). -/
def oldBuild (decode : String → String) (items : List (String × String)) :
    List (String × List String) :=
  items.foldl (fun acc kv => dictInsert acc kv.1 (pySplit (',') (decode (pyStrip kv.2)))) []

/-- Lift the legacy parser result into the loaded-value world (Python
returns the same dict object; values are lists of strings). -/
def oldToDict (d : List (String × List String)) : List (String × YVal) :=
  d.map (fun kv => (kv.1, .list (kv.2.map .str)))

/-- Embedding of `InsightsUploadConf.get_rm_conf`.  `fileIsFile` is the
`os.path.isfile` answer; `yamlResult` the outcome of
`yaml.safe_load` (`.error` a YAMLError, `.ok none` an empty document);
`ini` feeds the legacy fallback. -/
def get_rm_conf (self : UploadConfState) (fileIsFile : Bool)
    (yamlResult : Except Unit (Option YVal)) (ini : IniEnv) :
    Except PyErr (Option (List (String × YVal))) :=
  if !fileIsFile then .ok none
  else
    match yamlResult with
    | .error _ => (get_rm_conf_old self ini).map (fun d => some (oldToDict d))
    | .ok none => .ok (some [])
    | .ok (some (.map m)) =>
      match correct_format m with
      | some msg => .error (.runtimeError ("ERROR: " ++ msg))
      | none => .ok (some (m.filter (fun kv => truthy kv.2)))
    | .ok (some _) => (get_rm_conf_old self ini).map (fun d => some (oldToDict d))

/-- Embedding of `InsightsUploadConf.validate`.  `mode` is `stat.S_IMODE` of the
file; `rmConfResult` is the outcome of the `self.get_rm_conf()` call
(supplied separately, since the filesystem can change between the
permission check and the parse).  On a successful parse the code
reaches `self.config.verbose`, which raises `AttributeError` when the
attribute was never assigned. -/
def validate (self : UploadConfState) (fileIsFile : Bool) (mode : Nat)
    (rmConfResult : Except PyErr (Option (List (String × YVal)))) :
    Except PyErr Bool :=
  if !fileIsFile then .ok false
  else if !(mode = 0o600) then .ok false
  else
    match rmConfResult with
    | .error e => .error e
    | .ok none => .ok false
    | .ok (some _) =>
      match self.config? with
      | none => .error .attributeError
      | some _ => .ok true

/-! ## Shared concrete fixtures for witnesses and counterexamples -/

/-- A concrete configuration used to instantiate theorems. -/
def cfg0 : InsightsConfig :=
  { obfuscate := false, obfuscate_hostname := false, keep_archive := false,
    no_upload := false, output_dir := none, compressor := ("gz"),
    remove_file := ("/etc/insights-client/remove.conf"),
    logging_file := ("/var/log/insights-client/insights-client.log"),
    verbose := false, validate_flag := false }

/-- The identity as a stand-in escape decoder in concrete instances. -/
def idStr : String → String := fun s => s

/-- A concrete legacy-parser environment with an empty `[remove]` section. -/
def ini0 : IniEnv := { decode := idStr, items := .ok [] }

/-- A concrete legacy-parser environment whose INI parse fails. -/
def iniErr0 : IniEnv := { decode := idStr, items := .error () }

/-! ## C3: unknown top-level keys are a hard error naming them -/

/-- C3: for a document parsed as a mapping with at least one top-level
key outside `{commands, files, patterns, keywords}`, `get_rm_conf`
raises a `RuntimeError` whose message lists exactly the offending
keys. -/
theorem C3_unknown_key_error :
    ∀ (self : UploadConfState) (ini : IniEnv) (m : List (String × YVal)),
    (∃ k ∈ dictKeys m, k ∉ expected_keys) →
    (get_rm_conf self true (.ok (some (.map m))) ini =
      .error (.runtimeError ("ERROR: Unknown section(s) in remove.conf: " ++
        joinWith (", ") ((dictKeys m).filter (fun k => k ∉ expected_keys)) ++
        "\nValid sections are commands, files, patterns, keywords.")))
    ∧ (∀ k, k ∈ (dictKeys m).filter (fun k => k ∉ expected_keys) ↔
        (k ∈ dictKeys m ∧ k ∉ expected_keys)) := by
  intro self ini m hex
  obtain ⟨k0, hk0m, hk0⟩ := hex
  constructor
  · have hinv : (dictKeys m).filter (fun k => k ∉ expected_keys) ≠ [] := by
      intro hnil
      have hmem : k0 ∈ (dictKeys m).filter (fun k => k ∉ expected_keys) :=
        List.mem_filter.mpr ⟨hk0m, by simpa using hk0⟩
      rw [hnil] at hmem
      exact absurd hmem (List.not_mem_nil k0)
    have hex' : ∃ x ∈ dictKeys m, x ∉ expected_keys := ⟨k0, hk0m, hk0⟩
    unfold get_rm_conf correct_format
    simp [hinv, hex']
    simp only [← String.append_assoc]
    congr 2
  · intro k
    simp [List.mem_filter]

/-- Witness for C3: a document with the single unknown key `bogus`. -/
theorem C3_unknown_key_error_witness :
    get_rm_conf (uploadConf_init cfg0) true
        (.ok (some (.map [(("bogus"), YVal.null)]))) ini0 =
      .error (.runtimeError ("ERROR: Unknown section(s) in remove.conf: " ++
        joinWith (", ") ((dictKeys [(("bogus"), YVal.null)]).filter
          (fun k => k ∉ expected_keys)) ++
        "\nValid sections are commands, files, patterns, keywords.")) :=
  (C3_unknown_key_error (uploadConf_init cfg0) ini0 [(("bogus"), YVal.null)]
    ⟨("bogus"), by simp [dictKeys], by decide⟩).1

/-! ## C9: round-trip of the patterns key through the loader -/

/-- A truthy entry found by lookup survives the post-validation
truthiness filter, with the same value. -/
lemma dictLookup_filter_truthy {m : List (String × YVal)} {k : String} {v : YVal}
    (hv : truthy v = true) (h : dictLookup m k = some v) :
    dictLookup (m.filter (fun kv => truthy kv.2)) k = some v := by
  induction m with
  | nil => simp [dictLookup] at h
  | cons kv rest ih =>
    obtain ⟨k', v'⟩ := kv
    rw [dictLookup] at h
    by_cases hk : k' = k
    · rw [if_pos hk] at h
      obtain rfl : v' = v := Option.some_inj.mp h
      rw [List.filter_cons]
      simp only [hv]
      rw [if_pos (by simp), dictLookup, if_pos hk]
    · rw [if_neg hk] at h
      rw [List.filter_cons]
      by_cases ht : truthy v' = true
      · simp only [ht]
        rw [if_pos (by simp), dictLookup, if_neg hk]
        exact ih h
      · simp only [Bool.not_eq_true] at ht
        simp only [ht]
        rw [if_neg (by simp)]
        exact ih h

/-- If `get_rm_conf` succeeds on a parsed mapping, the returned value
is the truthiness-filtered mapping. -/
lemma get_rm_conf_ok_inv {self : UploadConfState} {ini : IniEnv}
    {m r : List (String × YVal)}
    (h : get_rm_conf self true (.ok (some (.map m))) ini = .ok (some r)) :
    r = m.filter (fun kv => truthy kv.2) := by
  unfold get_rm_conf at h
  simp only [Bool.not_true, Bool.false_eq_true, if_false] at h
  cases hcf : correct_format m with
  | some msg =>
    rw [hcf] at h
    exact absurd h (by simp)
  | none =>
    rw [hcf] at h
    simp only [Except.ok.injEq, Option.some_inj] at h
    exact h.symm

/-- C9 counterexample: the document `{patterns: []}` has a patterns
value that is a list of plain strings (the empty one), but `load`
drops the key entirely: the returned mapping is empty and its
patterns lookup yields nothing rather than the empty list. -/
theorem C9_roundtrip_counterexample :
    get_rm_conf (uploadConf_init cfg0) true
        (.ok (some (.map [(("patterns"), YVal.list [])]))) ini0 = .ok (some [])
    ∧ dictLookup ([] : List (String × YVal)) ("patterns") = none :=
  ⟨rfl, rfl⟩

/-- C9 (amended): for documents accepted by the loader, a patterns
value that is a **non-empty** list of plain strings round-trips
unchanged, and a patterns value `{regex: [strings]}` is preserved under
`patterns.regex` (even with an empty regex list); an empty flat
patterns list is dropped by the truthiness filter, as the
counterexample shows. -/
theorem C9_patterns_roundtrip :
    (∀ (self : UploadConfState) (ini : IniEnv) (m r : List (String × YVal))
       (ss : List String),
      ss ≠ [] →
      dictLookup m ("patterns") = some (.list (ss.map .str)) →
      get_rm_conf self true (.ok (some (.map m))) ini = .ok (some r) →
      dictLookup r ("patterns") = some (.list (ss.map .str)))
    ∧ (∀ (self : UploadConfState) (ini : IniEnv) (m r : List (String × YVal))
       (ss : List String),
      dictLookup m ("patterns") = some (.map [(("regex"), .list (ss.map .str))]) →
      get_rm_conf self true (.ok (some (.map m))) ini = .ok (some r) →
      dictLookup r ("patterns") = some (.map [(("regex"), .list (ss.map .str))])) := by
  constructor
  · intro self ini m r ss hne hm hok
    rw [get_rm_conf_ok_inv hok]
    apply dictLookup_filter_truthy _ hm
    cases ss with
    | nil => exact absurd rfl hne
    | cons a as => rfl
  · intro self ini m r ss hm hok
    rw [get_rm_conf_ok_inv hok]
    exact dictLookup_filter_truthy rfl hm

/-- Witness for C9: a one-element patterns list and a one-element
regex list both survive the loader at concrete inputs. -/
theorem C9_patterns_roundtrip_witness :
    dictLookup ([(("patterns"), YVal.list [YVal.str ("a")])]) ("patterns")
        = some (YVal.list [YVal.str ("a")])
    ∧ dictLookup ([(("patterns"), YVal.map [(("regex"), YVal.list [YVal.str ("b")])])])
        ("patterns")
        = some (YVal.map [(("regex"), YVal.list [YVal.str ("b")])]) :=
  ⟨C9_patterns_roundtrip.1 (uploadConf_init cfg0) ini0
      [(("patterns"), YVal.list [YVal.str ("a")])]
      [(("patterns"), YVal.list [YVal.str ("a")])] [("a")]
      (by simp) rfl rfl,
   C9_patterns_roundtrip.2 (uploadConf_init cfg0) ini0
      [(("patterns"), YVal.map [(("regex"), YVal.list [YVal.str ("b")])])]
      [(("patterns"), YVal.map [(("regex"), YVal.list [YVal.str ("b")])])] [("b")]
      rfl rfl⟩

/-!
## C6: validate

`validate` short-circuits to false when the file is missing or its
permission mode is not exactly `0600`; with mode `0600` it returns
false when `get_rm_conf()` gives `None`.  On a successful parse,
however, the code evaluates `self.config.verbose`, and `__init__`
never assigned `self.config`, so the call raises `AttributeError`
instead of returning true.
-/

/-- C6: the missing-file and wrong-mode paths return false without
consulting the parse at all (the result is the same for any parse
outcome), `0600` + `None` parse returns false, and — the divergence
from the claim — a successful parse raises `AttributeError` rather
than returning true, because `__init__` never assigns `self.config`. -/
theorem C6_validate_permission_gate :
    (∀ (self : UploadConfState) (mode : Nat)
       (r r' : Except PyErr (Option (List (String × YVal)))),
      validate self false mode r = .ok false
      ∧ validate self false mode r = validate self false mode r')
    ∧ (∀ (self : UploadConfState) (mode : Nat)
       (r r' : Except PyErr (Option (List (String × YVal)))),
      mode ≠ 0o600 →
      validate self true mode r = .ok false
      ∧ validate self true mode r = validate self true mode r')
    ∧ (∀ self : UploadConfState, validate self true 0o600 (.ok none) = .ok false)
    ∧ (∀ (config : InsightsConfig) (m : List (String × YVal)),
      validate (uploadConf_init config) true 0o600 (.ok (some m)) =
        .error .attributeError) := by
  refine ⟨?_, ?_, ?_, ?_⟩
  · intro self mode r r'
    exact ⟨rfl, rfl⟩
  · intro self mode r r' hmode
    have h1 : ∀ r'' : Except PyErr (Option (List (String × YVal))),
        validate self true mode r'' = .ok false := by
      intro r''
      unfold validate
      rw [if_neg (by simp), if_pos (by simpa using hmode)]
    exact ⟨h1 r, (h1 r).trans (h1 r').symm⟩
  · intro self
    rfl
  · intro config m
    rfl

/-- Witness for C6: the mode `0644` case returns false regardless of
the parse outcome, and the concrete `AttributeError` divergence. -/
theorem C6_validate_permission_gate_witness :
    (validate (uploadConf_init cfg0) true 0o644 (.ok (some [])) = .ok false
      ∧ validate (uploadConf_init cfg0) true 0o644 (.ok (some []))
          = validate (uploadConf_init cfg0) true 0o644 (.error .typeError))
    ∧ validate (uploadConf_init cfg0) true 0o600 (.ok (some [])) =
        .error .attributeError :=
  ⟨C6_validate_permission_gate.2.1 (uploadConf_init cfg0) 0o644
      (.ok (some [])) (.error .typeError) (by decide),
   C6_validate_permission_gate.2.2.2 cfg0 []⟩

/-!
## C7: the legacy flat-format fallback parser
-/

/-- The unknown-section error of `get_rm_conf_old`: raised at the
first item whose section name is not an expected key. -/
lemma oldLoop_unknown_section (decode : String → String)
    (pre : List (String × String)) (item value : String)
    (post : List (String × String)) :
    ∀ acc, (∀ kv ∈ pre, kv.1 ∈ expected_keys) → item ∉ expected_keys →
    oldLoop decode (pre ++ (item, value) :: post) acc =
      .error (.runtimeError ("Unknown section in remove.conf: " ++ item ++
        "\nValid sections are commands, files, patterns, keywords.")) := by
  induction pre with
  | nil =>
    intro acc _ hbad
    rw [List.nil_append, oldLoop, if_neg hbad]
  | cons kv pre ih =>
    intro acc hpre hbad
    rw [List.cons_append, oldLoop, if_pos (hpre kv (List.mem_cons_self kv pre))]
    exact ih _ (fun x hx => hpre x (List.mem_cons_of_mem _ hx)) hbad

/-- A run of the legacy loop over only expected sections is the fold
`oldBuild` over the same items. -/
lemma oldLoop_ok (decode : String → String) :
    ∀ (items : List (String × String)) (acc : List (String × List String)),
    (∀ kv ∈ items, kv.1 ∈ expected_keys) →
    oldLoop decode items acc =
      .ok (items.foldl
        (fun acc kv => dictInsert acc kv.1 (pySplit (',') (decode (pyStrip kv.2)))) acc) := by
  intro items
  induction items with
  | nil => intro acc _; rfl
  | cons kv rest ih =>
    intro acc hok
    rw [oldLoop, if_pos (hok kv (List.mem_cons_self kv rest)), List.foldl_cons]
    exact ih _ (fun x hx => hok x (List.mem_cons_of_mem _ hx))

/-- C7: in `get_rm_conf_old`, (a) an item with a section name outside
the expected keys raises a `RuntimeError` naming the valid sections,
(b) when every section name is expected, the result maps each section
to its stripped, escape-decoded, comma-split value (`oldBuild`), and
(c) — the divergence from the claim — when the INI parse itself fails,
building the user-facing message reads `self.config.logging_file` and
raises `AttributeError`, because `__init__` never assigns
`self.config`; no `RuntimeError` naming the log file is ever raised. -/
theorem C7_legacy_fallback :
    (∀ (self : UploadConfState) (ini : IniEnv) (pre : List (String × String))
       (item value : String) (post : List (String × String)),
      ini.items = .ok (pre ++ (item, value) :: post) →
      (∀ kv ∈ pre, kv.1 ∈ expected_keys) → item ∉ expected_keys →
      get_rm_conf_old self ini =
        .error (.runtimeError ("Unknown section in remove.conf: " ++ item ++
          "\nValid sections are commands, files, patterns, keywords.")))
    ∧ (∀ (self : UploadConfState) (ini : IniEnv) (items : List (String × String)),
      ini.items = .ok items → (∀ kv ∈ items, kv.1 ∈ expected_keys) →
      get_rm_conf_old self ini = .ok (oldBuild ini.decode items))
    ∧ (∀ (config : InsightsConfig) (ini : IniEnv),
      ini.items = .error () →
      get_rm_conf_old (uploadConf_init config) ini = .error .attributeError) := by
  refine ⟨?_, ?_, ?_⟩
  · intro self ini pre item value post hitems hpre hbad
    unfold get_rm_conf_old
    rw [hitems]
    exact oldLoop_unknown_section ini.decode pre item value post [] hpre hbad
  · intro self ini items hitems hok
    unfold get_rm_conf_old
    rw [hitems]
    exact oldLoop_ok ini.decode items [] hok
  · intro config ini hitems
    unfold get_rm_conf_old
    rw [hitems]
    rfl

/-- Witness for C7: a concrete unknown section, a concrete well-formed
file, and the concrete failing INI parse. -/
theorem C7_legacy_fallback_witness :
    get_rm_conf_old (uploadConf_init cfg0)
        { decode := idStr, items := .ok [(("bogus"), ("a,b"))] } =
      .error (.runtimeError ("Unknown section in remove.conf: bogus" ++
        "\nValid sections are commands, files, patterns, keywords."))
    ∧ get_rm_conf_old (uploadConf_init cfg0)
        { decode := idStr, items := .ok [(("commands"), (" /bin/ls, /bin/df "))] } =
      .ok (oldBuild idStr [(("commands"), (" /bin/ls, /bin/df "))])
    ∧ get_rm_conf_old (uploadConf_init cfg0) iniErr0 = .error .attributeError := by
  refine ⟨?_, ?_, ?_⟩
  · have h := C7_legacy_fallback.1 (uploadConf_init cfg0)
      { decode := idStr, items := .ok [(("bogus"), ("a,b"))] }
      [] ("bogus") ("a,b") [] rfl (by simp) (by decide)
    simpa using h
  · exact C7_legacy_fallback.2.1 (uploadConf_init cfg0)
      { decode := idStr, items := .ok [(("commands"), (" /bin/ls, /bin/df "))] }
      [(("commands"), (" /bin/ls, /bin/df "))] rfl (by decide)
  · exact C7_legacy_fallback.2.2 cfg0 iniErr0 rfl

/-!
## data_collector.py: pre-commands and command-spec expansion
-/

/-- A command spec from the collection configuration (`c["command"]`,
`c.get("symbolic_name")`, `"pre_command" in c`, `c.get("image")`). -/
structure CmdSpec where
  command : String
  symbolic_name : Option String := none
  pre_command : Option String := none
  image : Bool := false
deriving DecidableEq, Repr

/-- The outcome of `Popen(pre_cmd, stdout=PIPE, stderr=STDOUT,
shell=True)` followed by `communicate()`: either the spawn raises
`OSError` (with or without `errno == ENOENT`), or the process runs to
completion with a return code and decoded stdout lines. -/
inductive PreCmdOutcome where
  | spawnErrorENOENT
  | spawnErrorOther
  | completed (returncode : Int) (stdoutLines : List String)
deriving DecidableEq, Repr

/-- Embedding of `DataCollector._run_pre_command`.

```python
try:
    pre_proc = Popen(pre_cmd, stdout=PIPE, stderr=STDOUT, shell=True)
except OSError as err:
    if err.errno == errno.ENOENT:
        logger.debug("Command %s not found", pre_cmd)
    return
...
if the_return_code != 0:
    return []
return stdout.splitlines()
```

The bare `return` in the `except OSError` branch returns `None`
(modelled `none`); a completed process with nonzero return code
yields `[]`; otherwise the stdout lines. -/
def run_pre_command (outcome : PreCmdOutcome) : Option (List String) :=
  match outcome with
  | .spawnErrorENOENT => none
  | .spawnErrorOther => none
  | .completed rc lines => if rc != 0 then some [] else some lines

/-- Embedding of `DataCollector._parse_command_spec(spec, precmds)`.  `blacklist`
feeds `_blacklist_check`; `env` gives the `Popen` outcome for the
pre-command that is executed.  The `try` block catches only
`LookupError` (the missing-alias case); the `RuntimeError` raised on a
blacklisted pre-command, the `ValueError` a malformed command raises
inside `shlex`, and the `TypeError` from iterating the `None` that
`_run_pre_command` returns after a spawn error all propagate. -/
def parse_command_spec (blacklist : List String)
    (precmds : List (String × String)) (env : PreCmdOutcome)
    (spec : CmdSpec) : Except PyErr (List CmdSpec) :=
  match spec.pre_command with
  | none => .ok [spec]
  | some precmd_alias =>
    match dictLookup precmds precmd_alias with
    | none => .ok []
    | some precmd =>
      match blacklist_check blacklist precmd with
      | none => .error .valueError
      | some true => .error (.runtimeError ("Command Blacklist: " ++ precmd))
      | some false =>
        match run_pre_command env with
        | none => .error .typeError
        | some args =>
          .ok (args.map (fun arg => { spec with command := spec.command ++ " " ++ arg }))

/-- C2: the two manifestations of a missing pre-command binary.  When
`Popen` itself raises `OSError` with `errno == ENOENT` — the branch the
code logs as `Command %s not found` — `_run_pre_command` returns
`None` and `_parse_command_spec` raises `TypeError` iterating it,
contradicting the claim; when the missing binary surfaces as the
a nonzero shell exit status instead, the expansion is the empty list
without error, as the claim states. -/
theorem C2_precommand_binary_missing :
    parse_command_spec ([("rm")]) ([(("module"), ("/bin/ls /etc"))])
        .spawnErrorENOENT
        { command := ("du"), symbolic_name := some ("du"),
          pre_command := some ("module") } =
      .error .typeError
    ∧ parse_command_spec ([("rm")]) ([(("module"), ("/bin/ls /etc"))])
        (.completed 127 [])
        { command := ("du"), symbolic_name := some ("du"),
          pre_command := some ("module") } =
      .ok [] := by
  constructor
  · rfl
  · rfl

/-!
## run_collection: the command loop and the hostname path

`mangle.mangle_command` lives in `insights/util/mangle.py`, which is
not part of the sources here; it is a pure function from the literal
command to an archive file name and is passed in as a parameter
(`mangle`).  The per-item collector delegate
(`InsightsCommand` + `archive.add_to_archive`) is external; the
embedding records the specs handed to it in `collected`.
-/

/-- Python `os.path.join(a, b)` (posixpath, two arguments). -/
def pathJoin (a b : String) : String :=
  if b.data.head? = some ('/') then b
  else if a = "" ∨ a.data.getLast? = some ('/') then a ++ b
  else a ++ ("/") ++ b

/-- The observable state threaded through the command loop:
`DataCollector.hostname_path` and the specs handed to the collector
delegate. -/
structure CollectorState where
  hostname_path : Option String
  collected : List CmdSpec
deriving DecidableEq, Repr

/-- The `for c in conf["commands"]` loop of `run_collection`:

```python
for c in conf["commands"]:
    if c.get("symbolic_name") == "hostname":
        self.hostname_path = os.path.join(
            "insights_commands", mangle.mangle_command(c["command"]))
    rm_commands = rm_conf.get("commands", [])
    if c["command"] in rm_commands or c.get("symbolic_name") in rm_commands:
        logger.warn(...)
    elif self.mountpoint == "/" or c.get("image"):
        cmd_specs = self._parse_command_spec(c, conf["pre_commands"])
        for s in cmd_specs:
            if s["command"] in rm_commands:
                continue
            cmd_spec = InsightsCommand(self.config, s, exclude, self.mountpoint)
            self.archive.add_to_archive(cmd_spec)
```

Every spec whose symbolic name is `hostname` overwrites
`hostname_path` — including specs that are then skipped by the
exclusion check or the mountpoint condition. -/
def recordHostname (mangle : String → String) (c : CmdSpec) (st : CollectorState) :
    CollectorState :=
  if c.symbolic_name = some ("hostname") then
    { st with hostname_path := some (pathJoin ("insights_commands") (mangle c.command)) }
  else st

/-- The inner `for s in cmd_specs` loop: each expansion whose literal
command survives the exclusion re-check is handed to the collector
delegate (recorded in `collected`). -/
def addCollected (specs : List CmdSpec) (rm_commands : List String)
    (st : CollectorState) : CollectorState :=
  { st with collected := st.collected ++ specs.filter (fun s => s.command ∉ rm_commands) }

/-- The body of the command loop, one spec at a time (see the Python
excerpt above: record the hostname path, then either skip on the
exclusion match, or — when the mountpoint is `/` or the spec is
image-enabled — expand the spec and hand each expansion that survives
the re-check to the collector delegate). -/
def process_commands (mangle : String → String) (blacklist : List String)
    (precmds : List (String × String)) (env : PreCmdOutcome)
    (mountpoint : String) (rm_commands : List String) :
    List CmdSpec → CollectorState → Except PyErr CollectorState
  | [], st => .ok st
  | c :: rest, st =>
    if c.command ∈ rm_commands ∨
        c.symbolic_name.any (fun s => decide (s ∈ rm_commands)) = true then
      process_commands mangle blacklist precmds env mountpoint rm_commands rest
        (recordHostname mangle c st)
    else if mountpoint = ("/") ∨ c.image = true then
      match parse_command_spec blacklist precmds env c with
      | .error e => .error e
      | .ok specs =>
        process_commands mangle blacklist precmds env mountpoint rm_commands rest
          (addCollected specs rm_commands (recordHostname mangle c st))
    else
      process_commands mangle blacklist precmds env mountpoint rm_commands rest
        (recordHostname mangle c st)

/-- The archive-relative output path recorded after the loop: the one
belonging to the **last** spec whose symbolic name is `hostname`. -/
def lastHostnamePath (mangle : String → String) : List CmdSpec → Option String
  | [] => none
  | c :: rest =>
    (lastHostnamePath mangle rest).orElse
      (fun _ =>
        if c.symbolic_name = some ("hostname") then
          some (pathJoin ("insights_commands") (mangle c.command))
        else none)

/-- Embedding of `CleanOptions.__init__`: the hostname path handed to the scrubbing
engine — the recorded path when obfuscating the hostname (`or` falls
back to the fixed default on `None` or an empty string), `None`
otherwise. -/
def cleanOptionsHostnamePath (obfuscate_hostname : Bool)
    (hostname_path : Option String) : Option String :=
  if obfuscate_hostname then
    match hostname_path with
    | some s => if s != "" then some s else some ("insights_commands/hostname")
    | none => some ("insights_commands/hostname")
  else none

lemma recordHostname_hostname_path (mangle : String → String) (c : CmdSpec)
    (st : CollectorState) :
    (recordHostname mangle c st).hostname_path =
      if c.symbolic_name = some ("hostname")
      then some (pathJoin ("insights_commands") (mangle c.command))
      else st.hostname_path := by
  unfold recordHostname
  split <;> rfl

lemma addCollected_hostname_path (specs : List CmdSpec) (rm_commands : List String)
    (st : CollectorState) :
    (addCollected specs rm_commands st).hostname_path = st.hostname_path := rfl

lemma process_commands_hostname (mangle : String → String) (blacklist : List String)
    (precmds : List (String × String)) (env : PreCmdOutcome)
    (mountpoint : String) (rm_commands : List String) :
    ∀ (cmds : List CmdSpec) (st st' : CollectorState),
    process_commands mangle blacklist precmds env mountpoint rm_commands cmds st = .ok st' →
    st'.hostname_path =
      (lastHostnamePath mangle cmds).orElse (fun _ => st.hostname_path) := by
  intro cmds
  induction cmds with
  | nil =>
    intro st st' h
    rw [process_commands] at h
    obtain rfl : st = st' := Except.ok.inj h
    rfl
  | cons c rest ih =>
    intro st st' h
    have step : ∀ stm : CollectorState,
        stm.hostname_path = (recordHostname mangle c st).hostname_path →
        process_commands mangle blacklist precmds env mountpoint rm_commands rest stm
          = .ok st' →
        st'.hostname_path =
          (lastHostnamePath mangle (c :: rest)).orElse (fun _ => st.hostname_path) := by
      intro stm hstm hrec
      rw [ih _ _ hrec, hstm, recordHostname_hostname_path, lastHostnamePath]
      by_cases hsy : c.symbolic_name = some ("hostname")
      · cases hlr : lastHostnamePath mangle rest with
        | none => simp only [Option.orElse, if_pos hsy]
        | some q => simp [Option.orElse]
      · cases hlr : lastHostnamePath mangle rest with
        | none => simp only [Option.orElse, if_neg hsy]
        | some q => simp [Option.orElse]
    rw [process_commands] at h
    split at h
    · exact step _ rfl h
    · split at h
      · cases hp : parse_command_spec blacklist precmds env c with
        | error e => rw [hp] at h; exact absurd h (by simp)
        | ok specs =>
          rw [hp] at h
          exact step _ (addCollected_hostname_path ..) h
      · exact step _ rfl h

lemma lastHostnamePath_isSome {mangle : String → String} {cmds : List CmdSpec}
    (h : ∃ c ∈ cmds, c.symbolic_name = some ("hostname")) :
    ∃ p, lastHostnamePath mangle cmds = some p := by
  induction cmds with
  | nil => simp at h
  | cons c rest ih =>
    rw [lastHostnamePath]
    rcases h with ⟨c0, hc0, hname⟩
    rcases List.mem_cons.mp hc0 with rfl | hmem
    · cases hlr : lastHostnamePath mangle rest with
      | none =>
        refine ⟨pathJoin ("insights_commands") (mangle c0.command), ?_⟩
        simp only [Option.orElse, if_pos hname]
      | some q => exact ⟨q, by simp [Option.orElse]⟩
    · rcases ih ⟨c0, hmem, hname⟩ with ⟨p, hp⟩
      exact ⟨p, by simp [hp, Option.orElse]⟩

/-- The two hostname specs of the C5 counterexample. -/
def hostSpec1 : CmdSpec := { command := ("hostname"), symbolic_name := some ("hostname") }

/-- Second hostname spec, with a different literal command. -/
def hostSpec2 : CmdSpec := { command := ("hostname -f"), symbolic_name := some ("hostname") }

/-- C5 counterexample: with two command specs whose symbolic name is
`hostname`, the loop records the path of the **last** one, not the
first: the recorded path is that of `hostname -f`, which differs from
the path of the first spec (with the archive name map taken as the
identity; the real `mangle_command` also maps these two commands to
distinct names). -/
theorem C5_first_hostname_counterexample :
    process_commands idStr [] [] (.completed 0 []) ("/") [] [hostSpec1, hostSpec2]
        { hostname_path := none, collected := [] } =
      .ok { hostname_path := some ("insights_commands/hostname -f"),
            collected := [hostSpec1, hostSpec2] }
    ∧ ("insights_commands/hostname -f" : String) ≠ ("insights_commands/hostname") :=
  ⟨rfl, by decide⟩

/-- C5 (amended): every command spec whose symbolic name is `hostname`
overwrites `hostname_path` (before any exclusion check), so after a
loop that completes it holds the path of the **last** such spec; in
particular it is populated whenever the catalog contains such a spec,
and when it is not populated the obfuscation finalizer falls back to
the fixed default `insights_commands/hostname`. -/
theorem C5_hostname_recorded :
    (∀ (mangle : String → String) (blacklist : List String)
       (precmds : List (String × String)) (env : PreCmdOutcome)
       (mountpoint : String) (rm_commands : List String)
       (cmds : List CmdSpec) (st' : CollectorState),
      process_commands mangle blacklist precmds env mountpoint rm_commands cmds
          { hostname_path := none, collected := [] } = .ok st' →
      st'.hostname_path = lastHostnamePath mangle cmds
      ∧ ((∃ c ∈ cmds, c.symbolic_name = some ("hostname")) →
          ∃ p, st'.hostname_path = some p))
    ∧ cleanOptionsHostnamePath true none = some ("insights_commands/hostname") := by
  constructor
  · intro mangle blacklist precmds env mountpoint rm_commands cmds st' h
    have hmain := process_commands_hostname mangle blacklist precmds env mountpoint
      rm_commands cmds _ st' h
    have heq : st'.hostname_path = lastHostnamePath mangle cmds := by
      rw [hmain]
      cases lastHostnamePath mangle cmds <;> rfl
    refine ⟨heq, ?_⟩
    intro hex
    rcases lastHostnamePath_isSome hex with ⟨p, hp⟩
    exact ⟨p, by rw [heq, hp]⟩
  · rfl

/-- Witness for C5: the two-spec catalog of the counterexample run
through the amended theorem. -/
theorem C5_hostname_recorded_witness :
    ({ hostname_path := some ("insights_commands/hostname -f"),
       collected := [hostSpec1, hostSpec2] } : CollectorState).hostname_path
      = lastHostnamePath idStr [hostSpec1, hostSpec2] :=
  (C5_hostname_recorded.1 idStr [] [] (.completed 0 []) ("/") [] [hostSpec1, hostSpec2]
    _ rfl).1

/-!
## archive.py: InsightsArchive

`InsightsArchive.__init__` creates the working directory `tmp_dir`
(always) and the packaging directory `archive_tmp_dir` (only when not
obfuscating); the `mkdtemp` results are parameters.  The constructor
also calls `determine_hostname()` (defined in
`insights/client/utilities.py`, not among the sources here); its
result is bound to an unused local and does not affect the archive
state.  `archive_name`/`archive_dir` stay `None` until `update` runs.
-/

/-- The fields of an `InsightsArchive` object. -/
structure ArchiveState where
  config : InsightsConfig
  tmp_dir : String
  archive_tmp_dir : Option String
  archive_name : Option String
  archive_dir : Option String
  tar_file : Option String
deriving DecidableEq, Repr

/-- Embedding of `InsightsArchive.__init__(config)`; `d1`/`d2` are the two
`tempfile.mkdtemp` results. -/
def archive_init (config : InsightsConfig) (d1 d2 : String) : ArchiveState :=
  { config := config
    tmp_dir := d1
    archive_tmp_dir := if config.obfuscate then none else some d2
    archive_name := none
    archive_dir := none
    tar_file := none }

/-- Embedding of `InsightsArchive.get_compression_flag`. -/
def get_compression_flag (compressor : String) : String :=
  if compressor = ("gz") then ("z")
  else if compressor = ("xz") then ("J")
  else if compressor = ("bz2") then ("j")
  else if compressor = ("none") then ("")
  else ("z")

/-- Embedding of `InsightsArchive.create_tar_file`.  `tarRC` is the exit status of
the spawned `tar` process.  Raises `RuntimeError` when no packaging
directory exists, `TypeError` when `archive_name` is still `None`
(`os.path.join` with `None`); returns `None` when the `bz2`/`xz`
compressor binary is missing (nonzero tar exit), otherwise the tar
path, also stored in `tar_file`.  (The `tar` command string, the
deletion of the staging directory and the size logging touch only the
filesystem, not the returned value.) -/
def create_tar_file (a : ArchiveState) (tarRC : Int) :
    Except PyErr (Option String × ArchiveState) :=
  match a.archive_tmp_dir with
  | none => .error (.runtimeError ("Archive temporary directory not defined."))
  | some d =>
    match a.archive_name with
    | none => .error .typeError
    | some nm =>
      let ext := if a.config.compressor = ("none") then ("") else ("." ++ a.config.compressor)
      let tar_file_name := pathJoin d nm ++ (".tar") ++ ext
      if (a.config.compressor = ("bz2") ∨ a.config.compressor = ("xz")) ∧ tarRC ≠ 0 then
        .ok (none, a)
      else
        .ok (some tar_file_name, { a with tar_file := some tar_file_name })

/-- A flat model of the directories on disk: `dirs` is the set of
existing paths that the archive owns. -/
structure ArchiveFS where
  dirs : List String
deriving DecidableEq, Repr

/-- Python `shutil.rmtree(path, True)`: removes the tree, never raises
(`ignore_errors=True`). -/
def rmtreeIgnore (fs : ArchiveFS) (path : String) : ArchiveFS :=
  { dirs := fs.dirs.filter (fun d => d ≠ path) }

/-- Embedding of `InsightsArchive.delete_tmp_dir`. -/
def delete_tmp_dir (a : ArchiveState) (fs : ArchiveFS) : ArchiveFS :=
  rmtreeIgnore fs a.tmp_dir

/-- Embedding of `InsightsArchive.delete_archive_file`: removes the packaging
directory when one was created. -/
def delete_archive_file (a : ArchiveState) (fs : ArchiveFS) : ArchiveFS :=
  match a.archive_tmp_dir with
  | none => fs
  | some d => rmtreeIgnore fs d

/-- Embedding of `InsightsArchive.cleanup_tmp`:

```python
if self.config.keep_archive and self.tar_file:
    logger.info(...)
    if self.config.obfuscate:
        return  # return before deleting tmp_dir
else:
    self.delete_archive_file()
self.delete_tmp_dir()
```

A total function on the filesystem model: every operation it performs
is non-raising. -/
def cleanup_tmp (a : ArchiveState) (fs : ArchiveFS) : ArchiveFS :=
  if a.config.keep_archive ∧ a.tar_file ≠ none then
    if a.config.obfuscate then fs
    else delete_tmp_dir a fs
  else delete_tmp_dir a (delete_archive_file a fs)

/-! ## C8: cleanup is idempotent, but keeps the working directory in
one reachable state -/

/-- The archive state of the C8 counterexample: an obfuscated run with
`--keep-archive` whose tar file was produced (by the scrubbing
engine, see `done`). -/
def a8 : ArchiveState :=
  { config := { cfg0 with obfuscate := true, keep_archive := true }
    tmp_dir := ("/var/tmp/work")
    archive_tmp_dir := none
    archive_name := some ("insights-archive")
    archive_dir := some ("/var/tmp/work/insights-host")
    tar_file := some ("/var/tmp/soscleaner.tar.gz") }

/-- The filesystem of the C8 counterexample: only the working
directory exists. -/
def fs8 : ArchiveFS := { dirs := [("/var/tmp/work")] }

/-- C8 counterexample: with `keep_archive`, a produced tar file and
obfuscation enabled, `cleanup_tmp` returns before deleting anything —
calling it twice leaves the working directory `/var/tmp/work` behind,
contradicting the claim that no working directory is left behind, for
every archive state. -/
theorem C8_cleanup_counterexample :
    cleanup_tmp a8 (cleanup_tmp a8 fs8) = fs8
    ∧ ("/var/tmp/work") ∈ (cleanup_tmp a8 (cleanup_tmp a8 fs8)).dirs :=
  ⟨rfl, by decide⟩

lemma filter_self_self {α : Type} (p : α → Bool) (l : List α) :
    (l.filter p).filter p = l.filter p := by
  rw [List.filter_filter]
  simp

/-- C8 (amended): `cleanup_tmp` never raises (it is a total function
on the filesystem model, since every `rmtree` runs with
`ignore_errors=True`), calling it twice equals calling it once, and it
removes the working directory in every state **except** when
`keep_archive` is set, a tar file was produced and the run is
obfuscated — there it intentionally returns before deleting
(`return before deleting tmp_dir`), as the counterexample shows. -/
theorem C8_cleanup_idempotent :
    ∀ (a : ArchiveState) (fs : ArchiveFS),
    cleanup_tmp a (cleanup_tmp a fs) = cleanup_tmp a fs
    ∧ (¬(a.config.keep_archive = true ∧ a.tar_file ≠ none ∧ a.config.obfuscate = true) →
        a.tmp_dir ∉ (cleanup_tmp a fs).dirs) := by
  intro a fs
  by_cases h1 : a.config.keep_archive = true ∧ a.tar_file ≠ none
  · by_cases h2 : a.config.obfuscate = true
    · constructor
      · unfold cleanup_tmp
        rw [if_pos h1, if_pos h2, if_pos h1, if_pos h2]
      · intro hno
        exact absurd ⟨h1.1, h1.2, h2⟩ hno
    · have hcl : cleanup_tmp a fs = delete_tmp_dir a fs := by
        unfold cleanup_tmp
        rw [if_pos h1, if_neg h2]
      have hcl2 : cleanup_tmp a (cleanup_tmp a fs) = delete_tmp_dir a (cleanup_tmp a fs) := by
        unfold cleanup_tmp
        rw [if_pos h1, if_neg h2]
      constructor
      · rw [hcl2, hcl]
        unfold delete_tmp_dir rmtreeIgnore
        exact congrArg ArchiveFS.mk (filter_self_self _ _)
      · intro _
        rw [hcl]
        unfold delete_tmp_dir rmtreeIgnore
        simp [List.mem_filter]
  · have hcl : cleanup_tmp a fs = delete_tmp_dir a (delete_archive_file a fs) := by
      unfold cleanup_tmp
      rw [if_neg h1]
    have hcl2 : cleanup_tmp a (cleanup_tmp a fs) =
        delete_tmp_dir a (delete_archive_file a (cleanup_tmp a fs)) := by
      unfold cleanup_tmp
      rw [if_neg h1]
    constructor
    · rw [hcl2, hcl]
      unfold delete_tmp_dir delete_archive_file rmtreeIgnore
      cases a.archive_tmp_dir with
      | none => exact congrArg ArchiveFS.mk (filter_self_self _ _)
      | some d =>
        refine congrArg ArchiveFS.mk ?_
        rw [List.filter_comm, filter_self_self, List.filter_comm, filter_self_self]
    · intro _
      rw [hcl]
      unfold delete_tmp_dir rmtreeIgnore
      simp [List.mem_filter]

/-- Witness for C8: a non-obfuscated state with no tar file — cleanup
run twice equals cleanup run once and the working directory is gone. -/
theorem C8_cleanup_idempotent_witness :
    cleanup_tmp (archive_init cfg0 ("/var/tmp/w1") ("/var/tmp/w2"))
        (cleanup_tmp (archive_init cfg0 ("/var/tmp/w1") ("/var/tmp/w2"))
          { dirs := [("/var/tmp/w1"), ("/var/tmp/w2")] }) =
      cleanup_tmp (archive_init cfg0 ("/var/tmp/w1") ("/var/tmp/w2"))
        { dirs := [("/var/tmp/w1"), ("/var/tmp/w2")] }
    ∧ ("/var/tmp/w1") ∉
        (cleanup_tmp (archive_init cfg0 ("/var/tmp/w1") ("/var/tmp/w2"))
          { dirs := [("/var/tmp/w1"), ("/var/tmp/w2")] }).dirs :=
  ⟨(C8_cleanup_idempotent (archive_init cfg0 ("/var/tmp/w1") ("/var/tmp/w2"))
      { dirs := [("/var/tmp/w1"), ("/var/tmp/w2")] }).1,
   (C8_cleanup_idempotent (archive_init cfg0 ("/var/tmp/w1") ("/var/tmp/w2"))
      { dirs := [("/var/tmp/w1"), ("/var/tmp/w2")] }).2 (by decide)⟩

/-! ## C10: create_tar_file on an obfuscated archive -/

/-- C10: an archive constructed with obfuscation enabled has no
packaging directory (`archive_tmp_dir is None`), and `create_tar_file`
raises `RuntimeError("Archive temporary directory not defined.")`
whatever the tar process would have returned. -/
theorem C10_create_tar_obfuscated :
    ∀ (config : InsightsConfig) (d1 d2 : String) (tarRC : Int),
    config.obfuscate = true →
    create_tar_file (archive_init config d1 d2) tarRC =
      .error (.runtimeError ("Archive temporary directory not defined.")) := by
  intro config d1 d2 tarRC h
  unfold archive_init create_tar_file
  simp [h]

/-- Witness for C10 at a concrete obfuscated configuration. -/
theorem C10_create_tar_obfuscated_witness :
    create_tar_file (archive_init { cfg0 with obfuscate := true }
        ("/var/tmp/w1") ("/var/tmp/w2")) 0 =
      .error (.runtimeError ("Archive temporary directory not defined.")) :=
  C10_create_tar_obfuscated { cfg0 with obfuscate := true } ("/var/tmp/w1")
    ("/var/tmp/w2") 0 rfl

/-!
## DataCollector.done and the RHSM-facts IP report

`SOSCleaner` is the external scrubbing engine; the embedding takes its
outputs (`dir_path`, `archive_path`, `hashed_fqdn`, the IP-mapping
report) as an environment.  `_write_rhsm_facts` reads the report: the
header row decides which column is the original address (`"original"
in headings[0].lower()`), and an empty report or a short row raises
`IndexError`; the actual file write is wrapped in
`try/except (IOError, OSError)` and cannot affect the returned value.
-/

/-- Python `s.lower()` (character-wise). -/
def pyLower (s : String) : String := String.mk (s.data.map Char.toLower)

/-- Contiguous-sublist test on character lists. -/
def listHasSub (needle : List Char) : List Char → Bool
  | [] => needle.isEmpty
  | c :: rest => needle.isPrefixOf (c :: rest) || listHasSub needle rest

/-- Python `needle in haystack` on strings. -/
def strIn (needle haystack : String) : Bool := listHasSub needle.data haystack.data

/-- One data row of the IP report: strip, split on commas, index the
original and obfuscated columns (`IndexError` when a column is
missing). -/
def ipPair (org obf : Nat) (line : String) : Except PyErr (String × String) :=
  match (pySplit (',') (pyStrip line))[org]?, (pySplit (',') (pyStrip line))[obf]? with
  | some o, some b => .ok (o, b)
  | _, _ => .error .indexError

/-- The IP-report parse inside `_write_rhsm_facts`: empty report →
`IndexError` (`ips_list[0]`); otherwise detect the column order from
the header and convert every remaining row.  (`pySplit` never returns
an empty list, so the inner empty-headings branch is unreachable.) -/
def parse_ip_report : List String → Except PyErr (List (String × String))
  | [] => .error .indexError
  | header :: rows =>
    match pySplit (',') (pyStrip header) with
    | [] => .error .indexError
    | h0 :: _ =>
      if strIn ("original") (pyLower h0) then rows.mapM (ipPair 0 1)
      else rows.mapM (ipPair 1 0)

/-- Python truthiness of `config.output_dir`. -/
def truthyStrOpt : Option String → Bool
  | none => false
  | some s => s != ""

/-- The outputs of `SOSCleaner.clean_report`. -/
structure CleanerEnv where
  dir_path : String
  archive_path : String
  hashed_fqdn : String
  ip_report_lines : List String
deriving DecidableEq, Repr

/-- Embedding of `DataCollector.done(conf, rm_conf)`.

When obfuscating: build `CleanOptions` (`rm_conf` only feeds the
keyword warning and the temporary keyword file for the engine, and
does not influence the returned path), run the engine, write the RHSM
facts (whose report parse can raise `IndexError`), then return the
the directory or archive path of the engine depending on `output_dir`.
Otherwise return the raw collection directory (`archive_dir`) or the
the tar file of the Archive Manager. -/
def done (config : InsightsConfig) (archive : ArchiveState) (cleaner : CleanerEnv)
    (tarRC : Int) (_rm_conf : Option (List (String × YVal))) :
    Except PyErr (Option String) :=
  if config.obfuscate then
    match parse_ip_report cleaner.ip_report_lines with
    | .error e => .error e
    | .ok _ips =>
      if truthyStrOpt config.output_dir then .ok (some cleaner.dir_path)
      else .ok (some cleaner.archive_path)
  else
    if truthyStrOpt config.output_dir then .ok archive.archive_dir
    else
      match create_tar_file archive tarRC with
      | .error e => .error e
      | .ok (r, _) => .ok r

/-- C4: the four outcomes of `done`, decided by `obfuscate` and
`output_dir`: (false, false) returns exactly what the Archive
Manager function `create_tar_file` produces; (false, true) the raw collection
directory; (true, false) the archive path of the scrubbing engine;
(true, true) the scrubbed directory (the obfuscated cases under the
guarantee of the engine that its IP report parses). -/
theorem C4_done_four_outcomes :
    ∀ (config : InsightsConfig) (archive : ArchiveState) (cleaner : CleanerEnv)
      (tarRC : Int) (rm_conf : Option (List (String × YVal))),
    (config.obfuscate = false → truthyStrOpt config.output_dir = false →
      done config archive cleaner tarRC rm_conf =
        Except.map Prod.fst (create_tar_file archive tarRC))
    ∧ (config.obfuscate = false → truthyStrOpt config.output_dir = true →
      done config archive cleaner tarRC rm_conf = .ok archive.archive_dir)
    ∧ (∀ ips, config.obfuscate = true → truthyStrOpt config.output_dir = false →
      parse_ip_report cleaner.ip_report_lines = .ok ips →
      done config archive cleaner tarRC rm_conf = .ok (some cleaner.archive_path))
    ∧ (∀ ips, config.obfuscate = true → truthyStrOpt config.output_dir = true →
      parse_ip_report cleaner.ip_report_lines = .ok ips →
      done config archive cleaner tarRC rm_conf = .ok (some cleaner.dir_path)) := by
  intro config archive cleaner tarRC rm_conf
  refine ⟨?_, ?_, ?_, ?_⟩
  · intro hobf hout
    unfold done
    rw [if_neg (by simp [hobf]), if_neg (by simp [hout])]
    cases create_tar_file archive tarRC with
    | error e => rfl
    | ok pr => rfl
  · intro hobf hout
    unfold done
    rw [if_neg (by simp [hobf]), if_pos (by simp [hout])]
  · intro ips hobf hout hparse
    unfold done
    rw [if_pos (by simp [hobf]), hparse]
    rw [if_neg (by simp [hout])]
  · intro ips hobf hout hparse
    unfold done
    rw [if_pos (by simp [hobf]), hparse]
    rw [if_pos (by simp [hout])]

/-- A concrete non-obfuscated archive after collection ran. -/
def archA : ArchiveState :=
  { config := cfg0
    tmp_dir := ("/var/tmp/w1")
    archive_tmp_dir := some ("/var/tmp/w2")
    archive_name := some ("insights-archive")
    archive_dir := some ("/var/tmp/w1/insights-host")
    tar_file := none }

/-- Concrete scrubbing-engine outputs with a soscleaner-0.4.4 style
header (original column first). -/
def cleaner0 : CleanerEnv :=
  { dir_path := ("/var/tmp/soscleaner-1")
    archive_path := ("/var/tmp/soscleaner-1.tar.gz")
    hashed_fqdn := ("host.example")
    ip_report_lines := [("Obfuscated IP,Original IP"), ("10.230.230.1,10.0.0.1")] }

/-- Witness for C4: all four outcomes at concrete inputs (the IP
report of `cleaner0` parses with the obfuscated column first). -/
theorem C4_done_four_outcomes_witness :
    done cfg0 archA cleaner0 0 none =
      Except.map Prod.fst (create_tar_file archA 0)
    ∧ done { cfg0 with output_dir := some ("/out") } archA cleaner0 0 none =
      .ok archA.archive_dir
    ∧ done { cfg0 with obfuscate := true } archA cleaner0 0 none =
      .ok (some ("/var/tmp/soscleaner-1.tar.gz"))
    ∧ done { cfg0 with obfuscate := true, output_dir := some ("/out") } archA cleaner0 0 none =
      .ok (some ("/var/tmp/soscleaner-1")) :=
  ⟨(C4_done_four_outcomes cfg0 archA cleaner0 0 none).1 rfl rfl,
   (C4_done_four_outcomes { cfg0 with output_dir := some ("/out") } archA cleaner0 0 none).2.1
      rfl rfl,
   (C4_done_four_outcomes { cfg0 with obfuscate := true } archA cleaner0 0 none).2.2.1
      [(("10.0.0.1"), ("10.230.230.1"))] rfl rfl rfl,
   (C4_done_four_outcomes { cfg0 with obfuscate := true, output_dir := some ("/out") }
      archA cleaner0 0 none).2.2.2 [(("10.0.0.1"), ("10.230.230.1"))] rfl rfl rfl⟩
